import Mathlib

/-!
# Orders controller (`src/controllers/ordersController.js`)

A shallow embedding of the four request handlers `getAllOrders`,
`createNewOrder`, `updateOrder` and `deleteOrder`, and the properties of
them that the specification states.

* JavaScript values that a JSON request body can carry in a scalar field are
  embedded as `JSVal` (numbers are integers; `undefined` is an absent field;
  arrays and nested objects are not covered). A template literal renders a
  safe integer by its decimal digits; the rendering of the numbers beyond
  that range is an argument of the handlers that build a reply text.
* The two collections live in a `Store`; a handler is a function from the
  store (and the request body) to an `Outcome`: the reply, the store
  afterwards and the database calls it made, in order.
* `models/Order.js`, `models/User.js` and the object-document mapper are not
  part of the controller; their operations are modelled from the
  specification on lists kept in insertion order.
-/

set_option autoImplicit false

namespace OrdersController

/-! ## JavaScript values -/

/-- Scalar JavaScript values of a parsed JSON body; `undefined` is what
destructuring gives for a field that is absent. -/
inductive JSVal where
  | undefined
  | null
  | bool (b : Bool)
  | num (n : Int)
  | str (s : String)
  deriving DecidableEq, Repr

/-- JavaScript truthiness (`!v` is `!(v.truthy)`): `undefined`, `null`,
`false`, `0` and `''` are falsy, every other value is truthy. -/
def JSVal.truthy : JSVal → Bool
  | .undefined => false
  | .null => false
  | .bool b => b
  | .num n => n != 0
  | .str s => s != ""

/-- The `typeof` operator. -/
def JSVal.typeof : JSVal → String
  | .undefined => "undefined"
  | .null => "object"
  | .bool _ => "boolean"
  | .num _ => "number"
  | .str _ => "string"

/-- The conversion of a number to a string: the decimal digits for a safe
integer (up to `Number.MAX_SAFE_INTEGER` in absolute value). Beyond that
range the result depends on the rounding of the parsed value and, from 1e21
on, is in exponent form (`1e+21`); there the conversion is the argument
`large`. -/
def numberToString (large : Int → String) (n : Int) : String :=
  if n.natAbs ≤ 9007199254740991 then toString n else large n

/-- String conversion as done by a template literal `${v}`; `large` converts
the numbers outside the safe range. -/
def JSVal.toJSString (large : Int → String) : JSVal → String
  | .undefined => "undefined"
  | .null => "null"
  | .bool true => "true"
  | .bool false => "false"
  | .num n => numberToString large n
  | .str s => s

/-! ## Data model -/

/-- An order document. `_id` is the string form of its object id. -/
structure Order where
  _id : String
  user : JSVal
  tableNo : JSVal
  ordertext : JSVal
  completed : JSVal
  deriving DecidableEq, Repr

/-- A user document. -/
structure User where
  _id : String
  username : String
  deriving DecidableEq, Repr

/-- The external store: the `orders` and the `users` collection. -/
structure Store where
  orders : List Order
  users : List User
  deriving DecidableEq, Repr

/-- The fields of `req.body` that the handlers destructure. -/
structure Body where
  id : JSVal
  user : JSVal
  tableNo : JSVal
  ordertext : JSVal
  completed : JSVal
  deriving DecidableEq, Repr

/-- An element of the list reply: `{ ...order, username }`. -/
structure OrderWithUser where
  _id : String
  user : JSVal
  tableNo : JSVal
  ordertext : JSVal
  completed : JSVal
  username : String
  deriving DecidableEq, Repr

/-- The JSON payloads the handlers send. -/
inductive ResBody where
  | message (m : String)
  | text (t : String)
  | orders (l : List OrderWithUser)
  deriving DecidableEq, Repr

/-- What a handler run ends with: a response sent with a status, or an
exception that `asyncHandler` passes on to the error middleware. -/
inductive Reply where
  | sent (status : Nat) (body : ResBody)
  | thrown (error : String)
  deriving DecidableEq, Repr

/-- A call made to the database layer. -/
inductive DbCall where
  | orderFind
  | orderFindOne (tableNo : JSVal)
  | orderFindById (id : JSVal)
  | orderCreate (user tableNo ordertext : JSVal)
  | orderSave (id : String)
  | orderDeleteOne (id : String)
  | userFindById (id : JSVal)
  deriving DecidableEq, Repr

/-- Result of running a handler. -/
structure Outcome where
  reply : Reply
  store : Store
  calls : List DbCall
  deriving DecidableEq, Repr

/-! ## The database layer -/

/-- Modelled from the spec: `Order.find()` of the absent `models/Order.js`,
"fetch all Order records", in the store's iteration order. -/
def Order.find (s : Store) : List Order :=
  s.orders

/-- Modelled from the spec: `Order.findOne({ tableNo })` of the absent
`models/Order.js`, "query for an existing order with the same table number";
the first such order, `none` for `null`. -/
def Order.findOne (tableNo : JSVal) (s : Store) : Option Order :=
  s.orders.find? (fun o => o.tableNo == tableNo)

/-- Modelled from the spec: `Order.findById(id)` of the absent
`models/Order.js`, "fetch existing Order by id"; an id that is not the string
form of an order's `_id` finds nothing. -/
def Order.findById (id : JSVal) (s : Store) : Option Order :=
  match id with
  | .str i => s.orders.find? (fun o => o._id == i)
  | _ => none

/-- Modelled from the spec: `User.findById(id)` of the absent
`models/User.js`, "fetch the owning User". -/
def User.findById (id : JSVal) (s : Store) : Option User :=
  match id with
  | .str i => s.users.find? (fun u => u._id == i)
  | _ => none

/-- Modelled from the spec: `Order.create({ user, tableNo, ordertext })` of
the absent `models/Order.js`, "insert new Order with completion flag defaulted
false". The object id of the new document is generated outside the
controller and is the argument `newId`. Returns the created document. -/
def Order.create (newId : String) (user tableNo ordertext : JSVal) (s : Store) :
    Option Order × Store :=
  let order : Order :=
    { _id := newId, user := user, tableNo := tableNo, ordertext := ordertext,
      completed := .bool false }
  (some order, { s with orders := s.orders ++ [order] })

/-- Writes `doc` over the first element of the list that has its `_id`. -/
def replaceById (doc : Order) : List Order → List Order
  | [] => []
  | o :: rest => if o._id == doc._id then doc :: rest else o :: replaceById doc rest

/-- Removes the first element of the list that has the given `_id`. -/
def removeById (id : String) : List Order → List Order
  | [] => []
  | o :: rest => if o._id == id then rest else o :: removeById id rest

/-- Modelled from the spec: `order.save()` of the absent `models/Order.js`,
"overwrite ... the fetched record and persist"; returns the saved document. -/
def Order.save (doc : Order) (s : Store) : Order × Store :=
  (doc, { s with orders := replaceById doc s.orders })

/-- Modelled from the spec: `order.deleteOne()` of the absent
`models/Order.js`, "remove the record"; returns the removed document. -/
def Order.deleteOne (doc : Order) (s : Store) : Order × Store :=
  (doc, { s with orders := removeById doc._id s.orders })

/-- `Promise.all`: the list of results when every promise is fulfilled,
`none` when one is rejected. -/
def promiseAll {α : Type} : List (Option α) → Option (List α)
  | [] => some []
  | none :: _ => none
  | some a :: rest =>
    match promiseAll rest with
    | some l => some (a :: l)
    | none => none

/-! ## The handlers -/

/-- The callback of `orders.map` in `getAllOrders`: looks the owning user up
and spreads the order with its `username`; reading `username` of `null`
throws, which is `none`. -/
def withUsername (s : Store) (order : Order) : Option OrderWithUser :=
  match User.findById order.user s with
  | some user =>
    some { _id := order._id, user := order.user, tableNo := order.tableNo,
           ordertext := order.ordertext, completed := order.completed,
           username := user.username }
  | none => none

/-- `getAllOrders` (GET /orders). -/
def getAllOrders (s : Store) : Outcome :=
  let orders := Order.find s
  if orders.length == 0 then
    { reply := .sent 400 (.message "No orders found"), store := s, calls := [.orderFind] }
  else
    let calls := DbCall.orderFind :: orders.map (fun order => DbCall.userFindById order.user)
    match promiseAll (orders.map (withUsername s)) with
    | some ordersWithUser =>
      { reply := .sent 200 (.orders ordersWithUser), store := s, calls := calls }
    | none =>
      { reply := .thrown "TypeError: Cannot read properties of null (reading 'username')",
        store := s, calls := calls }

/-- `createNewOrder` (POST /orders). -/
def createNewOrder (newId : String) (s : Store) (body : Body) : Outcome :=
  let user := body.user
  let tableNo := body.tableNo
  let ordertext := body.ordertext
  if !user.truthy || !tableNo.truthy || !ordertext.truthy then
    { reply := .sent 400 (.message "All fields are required"), store := s, calls := [] }
  else
    let duplicate := Order.findOne tableNo s
    if duplicate.isSome then
      { reply := .sent 409 (.message "Duplicate order tableNo"), store := s,
        calls := [.orderFindOne tableNo] }
    else
      let created := Order.create newId user tableNo ordertext s
      let calls := [DbCall.orderFindOne tableNo, DbCall.orderCreate user tableNo ordertext]
      match created.1 with
      | some _ =>
        { reply := .sent 201 (.message "New order created"), store := created.2, calls := calls }
      | none =>
        { reply := .sent 400 (.message "Invalid order data received"), store := created.2,
          calls := calls }

/-- The test `duplicate && duplicate?._id.toString() !== id` of `updateOrder`. -/
def isOtherOrder (duplicate : Option Order) (id : JSVal) : Bool :=
  match duplicate with
  | some d => JSVal.str d._id != id
  | none => false

/-- `updateOrder` (PATCH /orders); `large` is the conversion to a string of
the numbers outside the safe range, used by the template literal. -/
def updateOrder (large : Int → String) (s : Store) (body : Body) : Outcome :=
  let id := body.id
  let user := body.user
  let tableNo := body.tableNo
  let ordertext := body.ordertext
  let completed := body.completed
  if !id.truthy || !user.truthy || !tableNo.truthy || !ordertext.truthy
      || completed.typeof != "boolean" then
    { reply := .sent 400 (.message "All fields are required"), store := s, calls := [] }
  else
    match Order.findById id s with
    | none =>
      { reply := .sent 400 (.message "Order not found"), store := s,
        calls := [.orderFindById id] }
    | some order =>
      let duplicate := Order.findOne tableNo s
      if isOtherOrder duplicate id then
        { reply := .sent 409 (.message "Duplicate order tableNo"), store := s,
          calls := [.orderFindById id, .orderFindOne tableNo] }
      else
        let order := { order with user := user, tableNo := tableNo, ordertext := ordertext,
                                  completed := completed }
        let saved := Order.save order s
        let updatedOrder := saved.1
        { reply := .sent 200 (.text ("'" ++ updatedOrder.tableNo.toJSString large ++ "' updated")),
          store := saved.2,
          calls := [.orderFindById id, .orderFindOne tableNo, .orderSave order._id] }

/-- `deleteOrder` (DELETE /orders); `large` is the conversion to a string of
the numbers outside the safe range, used by the template literal. -/
def deleteOrder (large : Int → String) (s : Store) (body : Body) : Outcome :=
  let id := body.id
  if !id.truthy then
    { reply := .sent 400 (.message "Order ID required"), store := s, calls := [] }
  else
    match Order.findById id s with
    | none =>
      { reply := .sent 400 (.message "Order not found"), store := s,
        calls := [.orderFindById id] }
    | some order =>
      let deleted := Order.deleteOne order s
      let result := deleted.1
      let reply := "Order '" ++ result.tableNo.toJSString large ++ "' with ID " ++ result._id
        ++ " deleted"
      { reply := .sent 200 (.text reply), store := deleted.2,
        calls := [.orderFindById id, .orderDeleteOne order._id] }

/-! ## Predicates on stores and requests -/

/-- No order of the store carries the table number `t`. -/
def tableNoFree (t : JSVal) (s : Store) : Prop :=
  ∀ o ∈ s.orders, o.tableNo ≠ t

/-- The orders of the store have pairwise distinct table numbers. -/
def distinctTableNos (s : Store) : Prop :=
  (s.orders.map (fun o => o.tableNo)).Nodup

/-- The orders of the store have pairwise distinct `_id`s: the primary key
of the collection. -/
def distinctIds (s : Store) : Prop :=
  (s.orders.map (fun o => o._id)).Nodup

instance (t : JSVal) (s : Store) : Decidable (tableNoFree t s) :=
  inferInstanceAs (Decidable (∀ o ∈ s.orders, o.tableNo ≠ t))

instance (s : Store) : Decidable (distinctTableNos s) :=
  inferInstanceAs (Decidable (List.Nodup _))

instance (s : Store) : Decidable (distinctIds s) :=
  inferInstanceAs (Decidable (List.Nodup _))

/-- A conversion of the numbers outside the safe range, for runs in which
no such number occurs. -/
def noLarge : Int → String :=
  fun _ => ""

/-- The fields of an update request pass the handler's check: `id`, `user`,
`tableNo` and `ordertext` are truthy and `completed` is a boolean. -/
def Body.validForUpdate (b : Body) : Bool :=
  b.id.truthy && b.user.truthy && b.tableNo.truthy && b.ordertext.truthy
    && b.completed.typeof == "boolean"

/-- The document `updateOrder` saves: the fetched order with its four fields
overwritten by those of the request. -/
def Order.overwrite (o : Order) (b : Body) : Order :=
  { o with user := b.user, tableNo := b.tableNo, ordertext := b.ordertext,
           completed := b.completed }

/-- Every order of the store references a user of the store. -/
def allUsersExist (s : Store) : Prop :=
  ∀ o ∈ s.orders, ∃ u ∈ s.users, JSVal.str u._id = o.user

instance (s : Store) : Decidable (allUsersExist s) :=
  inferInstanceAs (Decidable (∀ o ∈ s.orders, ∃ u ∈ s.users, JSVal.str u._id = o.user))

/-- The element `v` of a list reply is the order `o` with all its fields and
the `username` of the user that the lookup of `o.user` returns. -/
def annotated (s : Store) (o : Order) (v : OrderWithUser) : Prop :=
  v._id = o._id ∧ v.user = o.user ∧ v.tableNo = o.tableNo ∧ v.ordertext = o.ordertext ∧
    v.completed = o.completed ∧
    ∃ u, User.findById o.user s = some u ∧ JSVal.str u._id = o.user ∧ v.username = u.username

/-- The reply of `getAllOrders` is an array that lists the orders of the
store, one element for each in the order of the store, each with the username
of its owning user. -/
def listsAllOrders (s : Store) : Prop :=
  ∃ st l, (getAllOrders s).reply = .sent st (.orders l) ∧ l.length = s.orders.length ∧
    List.Forall₂ (annotated s) s.orders l

/-- Stores that the handlers produce from a store without orders, run one
at a time; the object id given to a created order is not the `_id` of an
order of the store. -/
inductive Reachable : Store → Prop where
  | init (users : List User) : Reachable ⟨[], users⟩
  | create {s : Store} (newId : String) (body : Body) :
      Reachable s → newId ∉ s.orders.map (fun o => o._id) →
      Reachable (createNewOrder newId s body).store
  | update {s : Store} (large : Int → String) (body : Body) :
      Reachable s → Reachable (updateOrder large s body).store
  | delete {s : Store} (large : Int → String) (body : Body) :
      Reachable s → Reachable (deleteOrder large s body).store

/-! ## Lemmas on the database layer -/

theorem findOne_eq_none_iff (t : JSVal) (s : Store) :
    Order.findOne t s = none ↔ tableNoFree t s := by
  simp [Order.findOne, tableNoFree, List.find?_eq_none]

theorem findOne_isSome_iff (t : JSVal) (s : Store) :
    (Order.findOne t s).isSome = true ↔ ∃ o ∈ s.orders, o.tableNo = t := by
  simp [Order.findOne, List.find?_isSome]

/-! ## createNewOrder -/

/-- The run of `createNewOrder` on a complete request with a free table
number. -/
theorem createNewOrder_of_free (newId : String) (s : Store) (body : Body)
    (hu : body.user.truthy = true) (ht : body.tableNo.truthy = true)
    (ho : body.ordertext.truthy = true) (hfree : tableNoFree body.tableNo s) :
    createNewOrder newId s body =
      { reply := .sent 201 (.message "New order created"),
        store :=
          { orders := s.orders ++
              [{ _id := newId, user := body.user, tableNo := body.tableNo,
                 ordertext := body.ordertext, completed := .bool false }],
            users := s.users },
        calls := [.orderFindOne body.tableNo,
                  .orderCreate body.user body.tableNo body.ordertext] } := by
  have hnone := (findOne_eq_none_iff body.tableNo s).2 hfree
  simp [createNewOrder, hu, ht, ho, hnone, Order.create]

/-- The run of `createNewOrder` on a complete request with a taken table
number. -/
theorem createNewOrder_of_taken (newId : String) (s : Store) (body : Body)
    (hu : body.user.truthy = true) (ht : body.tableNo.truthy = true)
    (ho : body.ordertext.truthy = true) (hdup : ∃ o ∈ s.orders, o.tableNo = body.tableNo) :
    createNewOrder newId s body =
      { reply := .sent 409 (.message "Duplicate order tableNo"), store := s,
        calls := [.orderFindOne body.tableNo] } := by
  have hsome := (findOne_isSome_iff body.tableNo s).2 hdup
  simp [createNewOrder, hu, ht, ho, hsome]

/-- C1: a create request with all three fields truthy and a table number that
no order carries is answered 201 "New order created"; the store afterwards is
the store before followed by one new order with the requested user, tableNo
and ordertext and `completed = false`; every order of the store before is
still there and the users are untouched. -/
theorem createNewOrder_success (newId : String) (s : Store) (body : Body)
    (hu : body.user.truthy = true) (ht : body.tableNo.truthy = true)
    (ho : body.ordertext.truthy = true) (hfree : tableNoFree body.tableNo s) :
    (createNewOrder newId s body).reply = .sent 201 (.message "New order created") ∧
    (createNewOrder newId s body).store.orders =
      s.orders ++ [{ _id := newId, user := body.user, tableNo := body.tableNo,
                     ordertext := body.ordertext, completed := .bool false }] ∧
    (createNewOrder newId s body).store.users = s.users ∧
    (createNewOrder newId s body).store.orders.length = s.orders.length + 1 ∧
    (∀ o ∈ s.orders, o ∈ (createNewOrder newId s body).store.orders) := by
  rw [createNewOrder_of_free newId s body hu ht ho hfree]
  refine ⟨rfl, rfl, rfl, by simp, ?_⟩
  intro o ho
  exact List.mem_append_left _ ho

/-- Witness of C1: creating table 3 in the empty store. -/
theorem createNewOrder_success_witness :
    (createNewOrder "a1" ⟨[], []⟩
        ⟨.undefined, .str "u1", .num 3, .str "soup", .undefined⟩).reply
      = .sent 201 (.message "New order created") ∧
    (createNewOrder "a1" ⟨[], []⟩
        ⟨.undefined, .str "u1", .num 3, .str "soup", .undefined⟩).store.orders
      = [{ _id := "a1", user := .str "u1", tableNo := .num 3, ordertext := .str "soup",
           completed := .bool false }] := by
  have h := createNewOrder_success "a1" ⟨[], []⟩
    ⟨.undefined, .str "u1", .num 3, .str "soup", .undefined⟩
    (by decide) (by decide) (by decide) (by intro o ho; cases ho)
  exact ⟨h.1, h.2.1⟩

/-- C2: a create request with all three fields truthy whose table number is
carried by an order of the store is answered 409 "Duplicate order tableNo" and
leaves the store as it was; and two create requests with the same table
number, run one after the other from a store that has no such order, are
answered 201 and then 409, the second leaves the store of the first, and
exactly one order carries that table number afterwards. -/
theorem createNewOrder_duplicate :
    (∀ (newId : String) (s : Store) (body : Body),
      body.user.truthy = true → body.tableNo.truthy = true →
      body.ordertext.truthy = true →
      (∃ o ∈ s.orders, o.tableNo = body.tableNo) →
      (createNewOrder newId s body).reply = .sent 409 (.message "Duplicate order tableNo") ∧
      (createNewOrder newId s body).store = s) ∧
    (∀ (id₁ id₂ : String) (s : Store) (b₁ b₂ : Body),
      b₁.user.truthy = true → b₁.tableNo.truthy = true → b₁.ordertext.truthy = true →
      b₂.user.truthy = true → b₂.ordertext.truthy = true →
      b₂.tableNo = b₁.tableNo → tableNoFree b₁.tableNo s →
      (createNewOrder id₁ s b₁).reply = .sent 201 (.message "New order created") ∧
      (createNewOrder id₂ (createNewOrder id₁ s b₁).store b₂).reply
        = .sent 409 (.message "Duplicate order tableNo") ∧
      (createNewOrder id₂ (createNewOrder id₁ s b₁).store b₂).store
        = (createNewOrder id₁ s b₁).store ∧
      (createNewOrder id₂ (createNewOrder id₁ s b₁).store b₂).store.orders
        = s.orders ++ [{ _id := id₁, user := b₁.user, tableNo := b₁.tableNo,
                         ordertext := b₁.ordertext, completed := .bool false }] ∧
      ((createNewOrder id₂ (createNewOrder id₁ s b₁).store b₂).store.orders.filter
        (fun o => o.tableNo == b₁.tableNo)).length = 1) := by
  have hA : ∀ (newId : String) (s : Store) (body : Body),
      body.user.truthy = true → body.tableNo.truthy = true →
      body.ordertext.truthy = true →
      (∃ o ∈ s.orders, o.tableNo = body.tableNo) →
      (createNewOrder newId s body).reply = .sent 409 (.message "Duplicate order tableNo") ∧
      (createNewOrder newId s body).store = s := by
    intro newId s body hu ht ho hdup
    rw [createNewOrder_of_taken newId s body hu ht ho hdup]
    exact ⟨rfl, rfl⟩
  refine ⟨hA, ?_⟩
  intro id₁ id₂ s b₁ b₂ hu₁ ht₁ ho₁ hu₂ ho₂ heq hfree
  have h₁ := createNewOrder_of_free id₁ s b₁ hu₁ ht₁ ho₁ hfree
  have hr : (createNewOrder id₁ s b₁).reply = .sent 201 (.message "New order created") := by
    rw [h₁]
  have hst : (createNewOrder id₁ s b₁).store.orders = s.orders ++
      [{ _id := id₁, user := b₁.user, tableNo := b₁.tableNo, ordertext := b₁.ordertext,
         completed := .bool false }] := by
    rw [h₁]
  have hdup : ∃ o ∈ (createNewOrder id₁ s b₁).store.orders, o.tableNo = b₂.tableNo := by
    rw [hst, heq]
    exact ⟨_, List.mem_append_right _ (List.mem_singleton.2 rfl), rfl⟩
  obtain ⟨hr₂, hst₂⟩ := hA id₂ _ b₂ hu₂ (heq ▸ ht₁) ho₂ hdup
  refine ⟨hr, hr₂, hst₂, by rw [hst₂, hst], ?_⟩
  rw [hst₂, hst, List.filter_append]
  have hnil : s.orders.filter (fun o => o.tableNo == b₁.tableNo) = [] := by
    rw [List.filter_eq_nil_iff]
    intro o ho
    simpa using hfree o ho
  simp [hnil]

/-- Witness of C2: table 3 is created and then refused. -/
theorem createNewOrder_duplicate_witness :
    (createNewOrder "a2"
        ⟨[⟨"a1", .str "u1", .num 3, .str "soup", .bool false⟩], []⟩
        ⟨.undefined, .str "u2", .num 3, .str "tea", .undefined⟩).reply
      = .sent 409 (.message "Duplicate order tableNo") ∧
    (createNewOrder "a2" (createNewOrder "a1" ⟨[], []⟩
        ⟨.undefined, .str "u1", .num 3, .str "soup", .undefined⟩).store
        ⟨.undefined, .str "u2", .num 3, .str "tea", .undefined⟩).reply
      = .sent 409 (.message "Duplicate order tableNo") :=
  ⟨(createNewOrder_duplicate.1 "a2"
      ⟨[⟨"a1", .str "u1", .num 3, .str "soup", .bool false⟩], []⟩
      ⟨.undefined, .str "u2", .num 3, .str "tea", .undefined⟩
      (by decide) (by decide) (by decide) ⟨_, List.mem_singleton.2 rfl, rfl⟩).1,
   (createNewOrder_duplicate.2 "a1" "a2" ⟨[], []⟩
      ⟨.undefined, .str "u1", .num 3, .str "soup", .undefined⟩
      ⟨.undefined, .str "u2", .num 3, .str "tea", .undefined⟩
      (by decide) (by decide) (by decide) (by decide) (by decide) rfl
      (by intro o ho; cases ho)).2.1⟩

/-- C9: a create request in which one of user, tableNo, ordertext is falsy is
answered 400 "All fields are required" without any database call and without
a change of the store; absent, `null`, `''` and `0` are falsy, so the table
numbers `0` and `''` are refused. -/
theorem createNewOrder_missing_field :
    (∀ (newId : String) (s : Store) (body : Body),
      (body.user.truthy = false ∨ body.tableNo.truthy = false ∨
        body.ordertext.truthy = false) →
      (createNewOrder newId s body).reply = .sent 400 (.message "All fields are required") ∧
      (createNewOrder newId s body).calls = [] ∧
      (createNewOrder newId s body).store = s) ∧
    JSVal.undefined.truthy = false ∧ JSVal.null.truthy = false ∧
    (JSVal.str "").truthy = false ∧ (JSVal.num 0).truthy = false := by
  refine ⟨?_, rfl, rfl, by decide, by decide⟩
  intro newId s body h
  rcases h with h | h | h <;> simp [createNewOrder, h]

/-- Witness of C9: table number `0` is refused although an order could be
created for it. -/
theorem createNewOrder_missing_field_witness :
    (createNewOrder "a1" ⟨[], []⟩
        ⟨.undefined, .str "u1", .num 0, .str "soup", .undefined⟩).reply
      = .sent 400 (.message "All fields are required") ∧
    (createNewOrder "a1" ⟨[], []⟩
        ⟨.undefined, .str "u1", .num 0, .str "soup", .undefined⟩).calls = [] :=
  have h := createNewOrder_missing_field.1 "a1" ⟨[], []⟩
    ⟨.undefined, .str "u1", .num 0, .str "soup", .undefined⟩ (Or.inr (Or.inl (by decide)))
  ⟨h.1, h.2.1⟩

/-! ## updateOrder -/

theorem findById_eq_some {id : JSVal} {s : Store} {o : Order}
    (h : Order.findById id s = some o) :
    id = .str o._id ∧
      ∃ pre post, s.orders = pre ++ o :: post ∧ ∀ x ∈ pre, x._id ≠ o._id := by
  cases id <;> simp [Order.findById] at h
  rename_i i
  rw [List.find?_eq_some] at h
  obtain ⟨hp, pre, post, hl, hpre⟩ := h
  have hi : o._id = i := by simpa using hp
  subst hi
  refine ⟨rfl, pre, post, hl, ?_⟩
  intro x hx
  simpa using hpre x hx

theorem findById_mem {id : JSVal} {s : Store} {o : Order}
    (h : Order.findById id s = some o) : o ∈ s.orders := by
  obtain ⟨-, pre, post, hl, -⟩ := findById_eq_some h
  rw [hl]
  simp

theorem findById_eq_none_iff (id : JSVal) (s : Store) :
    Order.findById id s = none ↔ ∀ o ∈ s.orders, JSVal.str o._id ≠ id := by
  cases id <;> simp [Order.findById, List.find?_eq_none]

theorem findOne_eq_some {t : JSVal} {s : Store} {d : Order}
    (h : Order.findOne t s = some d) : d ∈ s.orders ∧ d.tableNo = t := by
  unfold Order.findOne at h
  exact ⟨List.mem_of_find?_eq_some h, by simpa using List.find?_some h⟩

theorem eq_of_tableNo_eq {s : Store} (hd : distinctTableNos s) {a b : Order}
    (ha : a ∈ s.orders) (hb : b ∈ s.orders) (h : a.tableNo = b.tableNo) : a = b :=
  List.inj_on_of_nodup_map hd ha hb h

theorem eq_of_id_eq {s : Store} (hd : distinctIds s) {a b : Order}
    (ha : a ∈ s.orders) (hb : b ∈ s.orders) (h : a._id = b._id) : a = b :=
  List.inj_on_of_nodup_map hd ha hb h

theorem replaceById_append (doc o : Order) (pre post : List Order)
    (hpre : ∀ x ∈ pre, x._id ≠ doc._id) (ho : o._id = doc._id) :
    replaceById doc (pre ++ o :: post) = pre ++ doc :: post := by
  induction pre with
  | nil => simp [replaceById, ho]
  | cons x rest ih =>
    have hx : x._id ≠ doc._id := hpre x (by simp)
    have hrest : ∀ y ∈ rest, y._id ≠ doc._id := fun y hy => hpre y (by simp [hy])
    simp [replaceById, hx, ih hrest]

theorem removeById_append (id : String) (o : Order) (pre post : List Order)
    (hpre : ∀ x ∈ pre, x._id ≠ id) (ho : o._id = id) :
    removeById id (pre ++ o :: post) = pre ++ post := by
  induction pre with
  | nil => simp [removeById, ho]
  | cons x rest ih =>
    have hx : x._id ≠ id := hpre x (by simp)
    have hrest : ∀ y ∈ rest, y._id ≠ id := fun y hy => hpre y (by simp [hy])
    simp [removeById, hx, ih hrest]

/-- The run of `updateOrder` on a request that fails the field check. -/
theorem updateOrder_of_invalid (large : Int → String) (s : Store) (body : Body)
    (h : body.validForUpdate = false) :
    updateOrder large s body =
      { reply := .sent 400 (.message "All fields are required"), store := s, calls := [] } := by
  have h' : (!body.id.truthy || !body.user.truthy || !body.tableNo.truthy
      || !body.ordertext.truthy || body.completed.typeof != "boolean") = true := by
    unfold Body.validForUpdate at h
    revert h
    cases body.id.truthy <;> cases body.user.truthy <;> cases body.tableNo.truthy <;>
      cases body.ordertext.truthy <;> simp
  unfold updateOrder
  simp only [h', if_true]

/-- The check of `updateOrder` lets a valid request through. -/
theorem updateOrder_check_of_valid (body : Body) (h : body.validForUpdate = true) :
    (!body.id.truthy || !body.user.truthy || !body.tableNo.truthy
      || !body.ordertext.truthy || body.completed.typeof != "boolean") = false := by
  unfold Body.validForUpdate at h
  revert h
  cases body.id.truthy <;> cases body.user.truthy <;> cases body.tableNo.truthy <;>
    cases body.ordertext.truthy <;> simp

/-- The run of `updateOrder` on a valid request whose id finds nothing. -/
theorem updateOrder_of_notFound (large : Int → String) (s : Store) (body : Body)
    (h : body.validForUpdate = true) (hfind : Order.findById body.id s = none) :
    updateOrder large s body =
      { reply := .sent 400 (.message "Order not found"), store := s,
        calls := [.orderFindById body.id] } := by
  unfold updateOrder
  simp only [updateOrder_check_of_valid body h, hfind]
  rfl

/-- The run of `updateOrder` on a valid request that meets another order
with its table number. -/
theorem updateOrder_of_conflict (large : Int → String) (s : Store) (body : Body) (o : Order)
    (h : body.validForUpdate = true) (hfind : Order.findById body.id s = some o)
    (hdup : isOtherOrder (Order.findOne body.tableNo s) body.id = true) :
    updateOrder large s body =
      { reply := .sent 409 (.message "Duplicate order tableNo"), store := s,
        calls := [.orderFindById body.id, .orderFindOne body.tableNo] } := by
  unfold updateOrder
  simp only [updateOrder_check_of_valid body h, hfind, hdup]
  rfl

/-- The run of `updateOrder` on a valid request that meets no other order
with its table number. -/
theorem updateOrder_of_ok (large : Int → String) (s : Store) (body : Body) (o : Order)
    (h : body.validForUpdate = true) (hfind : Order.findById body.id s = some o)
    (hdup : isOtherOrder (Order.findOne body.tableNo s) body.id = false) :
    updateOrder large s body =
      { reply := .sent 200 (.text ("'" ++ body.tableNo.toJSString large ++ "' updated")),
        store := { orders := replaceById (o.overwrite body) s.orders, users := s.users },
        calls := [.orderFindById body.id, .orderFindOne body.tableNo, .orderSave o._id] } := by
  unfold updateOrder
  simp only [updateOrder_check_of_valid body h, hfind, hdup]
  rfl

/-- C3: in a store with pairwise distinct table numbers, a valid update
request whose id names an existing order and whose table number is carried by
an order with another id is answered 409 "Duplicate order tableNo" and leaves
the store, and so the four fields of the target order, as they were. -/
theorem updateOrder_conflict (large : Int → String) (s : Store) (body : Body) (o d : Order)
    (hdist : distinctTableNos s) (hvalid : body.validForUpdate = true)
    (ho : o ∈ s.orders) (hid : JSVal.str o._id = body.id)
    (hd : d ∈ s.orders) (hdt : d.tableNo = body.tableNo) (hdid : JSVal.str d._id ≠ body.id) :
    (updateOrder large s body).reply = .sent 409 (.message "Duplicate order tableNo") ∧
    (updateOrder large s body).store = s ∧
    Order.findById body.id (updateOrder large s body).store = Order.findById body.id s := by
  have hsome : ∃ o', Order.findById body.id s = some o' := by
    cases hf : Order.findById body.id s with
    | some o' => exact ⟨o', rfl⟩
    | none => exact absurd hid ((findById_eq_none_iff body.id s).1 hf o ho)
  obtain ⟨o', hfind⟩ := hsome
  have hdup : isOtherOrder (Order.findOne body.tableNo s) body.id = true := by
    cases hone : Order.findOne body.tableNo s with
    | none => exact absurd hdt ((findOne_eq_none_iff body.tableNo s).1 hone d hd)
    | some d' =>
      obtain ⟨hd', hdt'⟩ := findOne_eq_some hone
      have : d' = d := eq_of_tableNo_eq hdist hd' hd (hdt'.trans hdt.symm)
      subst this
      simpa [isOtherOrder] using hdid
  rw [updateOrder_of_conflict large s body o' hvalid hfind hdup]
  exact ⟨rfl, rfl, rfl⟩

/-- Witness of C3: order `a1` asks for table 4, which order `a2` has. -/
theorem updateOrder_conflict_witness :
    (updateOrder noLarge
        ⟨[⟨"a1", .str "u1", .num 3, .str "soup", .bool false⟩,
          ⟨"a2", .str "u1", .num 4, .str "tea", .bool false⟩], []⟩
        ⟨.str "a1", .str "u2", .num 4, .str "rice", .bool true⟩).reply
      = .sent 409 (.message "Duplicate order tableNo") :=
  (updateOrder_conflict noLarge
      ⟨[⟨"a1", .str "u1", .num 3, .str "soup", .bool false⟩,
        ⟨"a2", .str "u1", .num 4, .str "tea", .bool false⟩], []⟩
      ⟨.str "a1", .str "u2", .num 4, .str "rice", .bool true⟩
      ⟨"a1", .str "u1", .num 3, .str "soup", .bool false⟩
      ⟨"a2", .str "u1", .num 4, .str "tea", .bool false⟩
      (by decide) (by decide) (by decide) rfl (by decide) rfl (by decide)).1

/-- C4: in a store with pairwise distinct table numbers, a valid update
request whose id names the order `o` (the one the lookup by id returns) and
whose table number is the one of `o` or is carried by no order is answered
200 with the string `'<tableNo>' updated`; afterwards the store has, at the
place of `o`, an order with the `_id` of `o` and the user, tableNo, ordertext
and completed of the request; every other order, the number of orders and the
users are as before, and the lookup by that id returns the rewritten order. -/
theorem updateOrder_success (large : Int → String) (s : Store) (body : Body) (o : Order)
    (hdist : distinctTableNos s) (hvalid : body.validForUpdate = true)
    (hfind : Order.findById body.id s = some o)
    (htable : o.tableNo = body.tableNo ∨ tableNoFree body.tableNo s) :
    (updateOrder large s body).reply
      = .sent 200 (.text ("'" ++ body.tableNo.toJSString large ++ "' updated")) ∧
    (∃ pre post, s.orders = pre ++ o :: post ∧ (∀ x ∈ pre, x._id ≠ o._id) ∧
      (updateOrder large s body).store.orders =
        pre ++ { _id := o._id, user := body.user, tableNo := body.tableNo,
                 ordertext := body.ordertext, completed := body.completed } :: post) ∧
    (updateOrder large s body).store.orders.length = s.orders.length ∧
    (updateOrder large s body).store.users = s.users ∧
    Order.findById body.id (updateOrder large s body).store =
      some { _id := o._id, user := body.user, tableNo := body.tableNo,
             ordertext := body.ordertext, completed := body.completed } := by
  obtain ⟨hid, pre, post, hl, hpre⟩ := findById_eq_some hfind
  have hdup : isOtherOrder (Order.findOne body.tableNo s) body.id = false := by
    cases hone : Order.findOne body.tableNo s with
    | none => rfl
    | some d =>
      obtain ⟨hd, hdt⟩ := findOne_eq_some hone
      rcases htable with hown | hfree
      · have : d = o := eq_of_tableNo_eq hdist hd (findById_mem hfind) (hdt.trans hown.symm)
        subst this
        simp [isOtherOrder, hid]
      · exact absurd hdt (hfree d hd)
  have hrepl : replaceById (o.overwrite body) s.orders = pre ++ o.overwrite body :: post := by
    rw [hl]
    exact replaceById_append _ _ _ _ hpre rfl
  rw [updateOrder_of_ok large s body o hvalid hfind hdup]
  refine ⟨rfl, ⟨pre, post, hl, hpre, hrepl⟩, ?_, rfl, ?_⟩
  · show (replaceById (o.overwrite body) s.orders).length = s.orders.length
    rw [hrepl, hl]
    simp
  · show Order.findById body.id ⟨replaceById (o.overwrite body) s.orders, s.users⟩ = _
    rw [hrepl, hid]
    simp only [Order.findById]
    rw [List.find?_eq_some]
    refine ⟨by simp [Order.overwrite], pre, post, rfl, ?_⟩
    intro x hx
    simpa using hpre x hx

/-- Witness of C4: order `a1` keeps its table 3 and has its other fields
replaced. -/
theorem updateOrder_success_witness :
    (updateOrder noLarge
        ⟨[⟨"a1", .str "u1", .num 3, .str "soup", .bool false⟩,
          ⟨"a2", .str "u1", .num 4, .str "tea", .bool false⟩], []⟩
        ⟨.str "a1", .str "u2", .num 3, .str "rice", .bool true⟩).reply
      = .sent 200 (.text "'3' updated") :=
  (updateOrder_success noLarge
      ⟨[⟨"a1", .str "u1", .num 3, .str "soup", .bool false⟩,
        ⟨"a2", .str "u1", .num 4, .str "tea", .bool false⟩], []⟩
      ⟨.str "a1", .str "u2", .num 3, .str "rice", .bool true⟩
      ⟨"a1", .str "u1", .num 3, .str "soup", .bool false⟩
      (by decide) (by decide) (by decide) (Or.inl rfl)).1

/-- C8: an update request whose `completed` is not of type boolean is
answered 400 "All fields are required" and leaves the store as it was,
whatever the other fields and the store are; absent, `null`, a string and a
number are not booleans; and a valid request with `completed = false` (or
`true`) is not answered "All fields are required". -/
theorem updateOrder_completed_boolean :
    (∀ (large : Int → String) (s : Store) (body : Body), body.completed.typeof ≠ "boolean" →
      (updateOrder large s body).reply = .sent 400 (.message "All fields are required") ∧
      (updateOrder large s body).store = s) ∧
    (∀ (n : Int) (t : String),
      JSVal.undefined.typeof ≠ "boolean" ∧ JSVal.null.typeof ≠ "boolean" ∧
      (JSVal.str t).typeof ≠ "boolean" ∧ (JSVal.num n).typeof ≠ "boolean") ∧
    (∀ (large : Int → String) (s : Store) (body : Body) (b : Bool),
      body.id.truthy = true → body.user.truthy = true → body.tableNo.truthy = true →
      body.ordertext.truthy = true → body.completed = .bool b →
      (updateOrder large s body).reply ≠ .sent 400 (.message "All fields are required")) := by
  refine ⟨?_, ?_, ?_⟩
  · intro large s body h
    have hv : body.validForUpdate = false := by
      simp [Body.validForUpdate, h]
    rw [updateOrder_of_invalid large s body hv]
    exact ⟨rfl, rfl⟩
  · intro n t
    refine ⟨by decide, by decide, by simp [JSVal.typeof], by simp [JSVal.typeof]⟩
  · intro large s body b hi hu ht ho hc
    have hv : body.validForUpdate = true := by
      simp [Body.validForUpdate, hi, hu, ht, ho, hc, JSVal.typeof]
    cases hfind : Order.findById body.id s with
    | none =>
      rw [updateOrder_of_notFound large s body hv hfind]
      simp
    | some o =>
      cases hdup : isOtherOrder (Order.findOne body.tableNo s) body.id with
      | true =>
        rw [updateOrder_of_conflict large s body o hv hfind hdup]
        simp
      | false =>
        rw [updateOrder_of_ok large s body o hv hfind hdup]
        simp

/-- Witness of C8: the string "true" as `completed` is refused for an
existing order with otherwise valid fields, and `false` is accepted. -/
theorem updateOrder_completed_boolean_witness :
    (updateOrder noLarge ⟨[⟨"a1", .str "u1", .num 3, .str "soup", .bool false⟩], []⟩
        ⟨.str "a1", .str "u2", .num 3, .str "rice", .str "true"⟩).reply
      = .sent 400 (.message "All fields are required") ∧
    (updateOrder noLarge ⟨[⟨"a1", .str "u1", .num 3, .str "soup", .bool true⟩], []⟩
        ⟨.str "a1", .str "u2", .num 3, .str "rice", .bool false⟩).reply
      ≠ .sent 400 (.message "All fields are required") :=
  ⟨(updateOrder_completed_boolean.1 noLarge
      ⟨[⟨"a1", .str "u1", .num 3, .str "soup", .bool false⟩], []⟩
      ⟨.str "a1", .str "u2", .num 3, .str "rice", .str "true"⟩ (by decide)).1,
   updateOrder_completed_boolean.2.2 noLarge
      ⟨[⟨"a1", .str "u1", .num 3, .str "soup", .bool true⟩], []⟩
      ⟨.str "a1", .str "u2", .num 3, .str "rice", .bool false⟩ false
      (by decide) (by decide) (by decide) (by decide) rfl⟩

/-! ## deleteOrder: the runs of the handler -/

/-- The run of `deleteOrder` on a request whose truthy id finds nothing. -/
theorem deleteOrder_of_notFound (large : Int → String) (s : Store) (body : Body)
    (hid : body.id.truthy = true) (hfind : Order.findById body.id s = none) :
    deleteOrder large s body =
      { reply := .sent 400 (.message "Order not found"), store := s,
        calls := [.orderFindById body.id] } := by
  unfold deleteOrder
  simp only [hid, hfind]
  rfl

/-- The run of `deleteOrder` on a request whose truthy id finds `o`. -/
theorem deleteOrder_of_found (large : Int → String) (s : Store) (body : Body) (o : Order)
    (hid : body.id.truthy = true) (hfind : Order.findById body.id s = some o) :
    deleteOrder large s body =
      { reply := .sent 200 (.text ("Order '" ++ o.tableNo.toJSString large ++ "' with ID "
          ++ o._id ++ " deleted")),
        store := { orders := removeById o._id s.orders, users := s.users },
        calls := [.orderFindById body.id, .orderDeleteOne o._id] } := by
  unfold deleteOrder
  simp only [hid, hfind]
  rfl

/-- The run of `deleteOrder` on a request without a truthy id. -/
theorem deleteOrder_of_missing (large : Int → String) (s : Store) (body : Body) (hid : body.id.truthy = false) :
    deleteOrder large s body =
      { reply := .sent 400 (.message "Order ID required"), store := s, calls := [] } := by
  unfold deleteOrder
  simp only [hid]
  rfl

/-- In a store with distinct ids the lookup by the id of a stored order
returns that order. -/
theorem findById_of_mem {s : Store} (hd : distinctIds s) {o : Order} (ho : o ∈ s.orders) :
    Order.findById (.str o._id) s = some o := by
  cases hf : Order.findById (.str o._id) s with
  | none => exact absurd rfl ((findById_eq_none_iff _ s).1 hf o ho)
  | some o' =>
    obtain ⟨hid, -⟩ := findById_eq_some hf
    have hid' : o._id = o'._id := by simpa using hid
    rw [eq_of_id_eq hd ho (findById_mem hf) hid']

/-! ## getAllOrders: the runs of the handler -/

theorem promiseAll_eq_some {α : Type} (xs : List (Option α)) (l : List α) :
    promiseAll xs = some l ↔ xs = l.map some := by
  induction xs generalizing l with
  | nil => cases l <;> simp [promiseAll]
  | cons x rest ih =>
    cases x with
    | none => cases l <;> simp [promiseAll]
    | some a =>
      cases hr : promiseAll rest with
      | none =>
        cases l with
        | nil => simp [promiseAll, hr]
        | cons b l' =>
          have := (ih l').not.1 (by simp [hr])
          simp [promiseAll, hr, this]
      | some r =>
        have hrest := (ih r).1 hr
        cases l with
        | nil => simp [promiseAll, hr]
        | cons b l' =>
          simp only [promiseAll, hr, List.map_cons, List.cons.injEq, Option.some.injEq]
          constructor
          · rintro ⟨rfl, rfl⟩
            exact ⟨rfl, hrest⟩
          · rintro ⟨rfl, h⟩
            refine ⟨rfl, ?_⟩
            rw [hrest] at h
            exact List.map_injective_iff.2 (Option.some_injective α) h

/-- The run of `getAllOrders` on a store without orders. -/
theorem getAllOrders_of_empty (s : Store) (h : s.orders = []) :
    getAllOrders s =
      { reply := .sent 400 (.message "No orders found"), store := s,
        calls := [.orderFind] } := by
  simp [getAllOrders, Order.find, h]

/-- The run of `getAllOrders` on a store with orders when every lookup of an
owning user succeeds. -/
theorem getAllOrders_of_users (s : Store) (l : List OrderWithUser) (h : s.orders ≠ [])
    (hl : s.orders.map (withUsername s) = l.map some) :
    getAllOrders s =
      { reply := .sent 200 (.orders l), store := s,
        calls := .orderFind :: s.orders.map (fun order => DbCall.userFindById order.user) } := by
  have hp := (promiseAll_eq_some _ l).2 hl
  simp [getAllOrders, Order.find, h, hp]

/-- The reply of `getAllOrders` is a response with an array only in the
branch where all lookups succeed. -/
theorem getAllOrders_orders {s : Store} {st : Nat} {l : List OrderWithUser}
    (h : (getAllOrders s).reply = .sent st (.orders l)) :
    st = 200 ∧ s.orders ≠ [] ∧ s.orders.map (withUsername s) = l.map some := by
  by_cases he : s.orders = []
  · rw [getAllOrders_of_empty s he] at h
    simp at h
  · cases hp : promiseAll (s.orders.map (withUsername s)) with
    | none =>
      simp [getAllOrders, Order.find, he, hp] at h
    | some r =>
      simp [getAllOrders, Order.find, he, hp] at h
      obtain ⟨rfl, rfl⟩ := h
      exact ⟨rfl, he, (promiseAll_eq_some _ _).1 hp⟩

theorem withUsername_id {s : Store} {o : Order} {v : OrderWithUser}
    (h : withUsername s o = some v) : v._id = o._id := by
  unfold withUsername at h
  cases hu : User.findById o.user s with
  | none => simp [hu] at h
  | some u =>
    simp [hu] at h
    rw [← h]

theorem userFindById_eq_some {id : JSVal} {s : Store} {u : User}
    (h : User.findById id s = some u) : u ∈ s.users ∧ JSVal.str u._id = id := by
  cases id <;> simp [User.findById] at h
  exact ⟨List.mem_of_find?_eq_some h, by simpa using List.find?_some h⟩

theorem userFindById_of_exists {id : JSVal} {s : Store}
    (h : ∃ u ∈ s.users, JSVal.str u._id = id) : ∃ u, User.findById id s = some u := by
  obtain ⟨u, hu, rfl⟩ := h
  cases hf : User.findById (.str u._id) s with
  | some u' => exact ⟨u', rfl⟩
  | none =>
    simp only [User.findById, List.find?_eq_none] at hf
    exact absurd (hf u hu) (by simp)

theorem withUsername_eq_some {s : Store} {o : Order} {v : OrderWithUser}
    (h : withUsername s o = some v) : annotated s o v := by
  unfold withUsername at h
  cases hu : User.findById o.user s with
  | none => simp [hu] at h
  | some u =>
    simp [hu] at h
    subst h
    exact ⟨rfl, rfl, rfl, rfl, rfl, u, hu, (userFindById_eq_some hu).2, rfl⟩

theorem forall₂_annotated {s : Store} {os : List Order} {l : List OrderWithUser}
    (h : os.map (withUsername s) = l.map some) : List.Forall₂ (annotated s) os l := by
  induction os generalizing l with
  | nil =>
    cases l with
    | nil => exact List.Forall₂.nil
    | cons v l' => simp at h
  | cons o rest ih =>
    cases l with
    | nil => simp at h
    | cons v l' =>
      simp only [List.map_cons, List.cons.injEq] at h
      exact List.Forall₂.cons (withUsername_eq_some h.1) (ih h.2)

theorem exists_withUsername (s : Store) (os : List Order)
    (h : ∀ o ∈ os, ∃ u ∈ s.users, JSVal.str u._id = o.user) :
    ∃ l : List OrderWithUser, os.map (withUsername s) = l.map some := by
  induction os with
  | nil => exact ⟨[], rfl⟩
  | cons o rest ih =>
    obtain ⟨l, hl⟩ := ih (fun x hx => h x (List.mem_cons_of_mem _ hx))
    obtain ⟨u, hu⟩ := userFindById_of_exists (h o (List.mem_cons_self _ _))
    refine ⟨{ _id := o._id, user := o.user, tableNo := o.tableNo, ordertext := o.ordertext,
              completed := o.completed, username := u.username } :: l, ?_⟩
    simp [withUsername, hu, hl]

/-- The list reply on a store with orders that all reference existing
users. -/
theorem getAllOrders_of_allUsersExist (s : Store) (hne : s.orders ≠ [])
    (hu : allUsersExist s) :
    ∃ l, getAllOrders s =
        { reply := .sent 200 (.orders l), store := s,
          calls := .orderFind :: s.orders.map (fun order => DbCall.userFindById order.user) } ∧
      s.orders.map (withUsername s) = l.map some := by
  obtain ⟨l, hl⟩ := exists_withUsername s s.orders hu
  exact ⟨l, getAllOrders_of_users s l hne hl, hl⟩

/-! ## deleteOrder and getAllOrders: the stated properties -/

/-- C5: a delete request with a truthy id that no order has is answered 400
"Order not found" and leaves the store as it was; a delete request with a
truthy id that an order has is answered 200 with the confirmation string for
the first order `o` with that id, and the store afterwards is the store
before without `o`, all other orders and the users as before; when the ids of
the store are distinct and `o` is the order with that id, no order with that
id is left and a following `getAllOrders` has no element with that id in its
reply. -/
theorem deleteOrder_spec :
    (∀ (large : Int → String) (s : Store) (body : Body), body.id.truthy = true →
      (∀ o ∈ s.orders, JSVal.str o._id ≠ body.id) →
      (deleteOrder large s body).reply = .sent 400 (.message "Order not found") ∧
      (deleteOrder large s body).store = s) ∧
    (∀ (large : Int → String) (s : Store) (body : Body), body.id.truthy = true →
      (∃ o ∈ s.orders, JSVal.str o._id = body.id) →
      ∃ o pre post, JSVal.str o._id = body.id ∧ s.orders = pre ++ o :: post ∧
        (∀ x ∈ pre, x._id ≠ o._id) ∧
        (deleteOrder large s body).reply = .sent 200 (.text ("Order '" ++ o.tableNo.toJSString large
          ++ "' with ID " ++ o._id ++ " deleted")) ∧
        (deleteOrder large s body).store.orders = pre ++ post ∧
        (deleteOrder large s body).store.users = s.users) ∧
    (∀ (large : Int → String) (s : Store) (body : Body) (o : Order), distinctIds s → body.id.truthy = true →
      o ∈ s.orders → JSVal.str o._id = body.id →
      (deleteOrder large s body).reply = .sent 200 (.text ("Order '" ++ o.tableNo.toJSString large
        ++ "' with ID " ++ o._id ++ " deleted")) ∧
      (∃ pre post, s.orders = pre ++ o :: post ∧
        (deleteOrder large s body).store.orders = pre ++ post) ∧
      (∀ x ∈ (deleteOrder large s body).store.orders, x._id ≠ o._id) ∧
      (∀ st l, (getAllOrders (deleteOrder large s body).store).reply = .sent st (.orders l) →
        ∀ v ∈ l, v._id ≠ o._id)) := by
  have hB : ∀ (large : Int → String) (s : Store) (body : Body) (o : Order), body.id.truthy = true →
      Order.findById body.id s = some o →
      ∃ pre post, s.orders = pre ++ o :: post ∧ (∀ x ∈ pre, x._id ≠ o._id) ∧
        (deleteOrder large s body).reply = .sent 200 (.text ("Order '" ++ o.tableNo.toJSString large
          ++ "' with ID " ++ o._id ++ " deleted")) ∧
        (deleteOrder large s body).store.orders = pre ++ post ∧
        (deleteOrder large s body).store.users = s.users := by
    intro large s body o hid hfind
    obtain ⟨-, pre, post, hl, hpre⟩ := findById_eq_some hfind
    rw [deleteOrder_of_found large s body o hid hfind]
    refine ⟨pre, post, hl, hpre, rfl, ?_, rfl⟩
    show removeById o._id s.orders = pre ++ post
    rw [hl]
    exact removeById_append _ _ _ _ hpre rfl
  refine ⟨?_, ?_, ?_⟩
  · intro large s body hid hno
    rw [deleteOrder_of_notFound large s body hid ((findById_eq_none_iff body.id s).2 hno)]
    exact ⟨rfl, rfl⟩
  · intro large s body hid hex
    cases hfind : Order.findById body.id s with
    | none =>
      obtain ⟨o, ho, hoid⟩ := hex
      exact absurd hoid ((findById_eq_none_iff body.id s).1 hfind o ho)
    | some o =>
      obtain ⟨pre, post, hl, hpre, hr, hst, hus⟩ := hB large s body o hid hfind
      exact ⟨o, pre, post, (findById_eq_some hfind).1.symm, hl, hpre, hr, hst, hus⟩
  · intro large s body o hdist hid ho hoid
    have hfind : Order.findById body.id s = some o := by
      rw [← hoid]
      exact findById_of_mem hdist ho
    obtain ⟨pre, post, hl, -, hr, hst, -⟩ := hB large s body o hid hfind
    have hleft : ∀ x ∈ (deleteOrder large s body).store.orders, x._id ≠ o._id := by
      intro x hx hxo
      rw [hst] at hx
      have hnd : (pre ++ o :: post).Nodup := by
        have := hdist
        unfold distinctIds at this
        rw [hl] at this
        exact List.Nodup.of_map _ this
      have hxs : x ∈ s.orders := by
        rw [hl]
        rcases List.mem_append.1 hx with h | h
        · exact List.mem_append_left _ h
        · exact List.mem_append_right _ (List.mem_cons_of_mem _ h)
      have hxeq : x = o := eq_of_id_eq hdist hxs ho hxo
      subst hxeq
      have hmid := (List.nodup_cons.1 (List.nodup_middle.1 hnd)).1
      exact hmid hx
    refine ⟨hr, ⟨pre, post, hl, hst⟩, hleft, ?_⟩
    intro st l hget v hv
    obtain ⟨-, -, hmap⟩ := getAllOrders_orders hget
    have hvm : some v ∈ l.map some := List.mem_map_of_mem _ hv
    rw [← hmap] at hvm
    obtain ⟨x, hx, hxv⟩ := List.mem_map.1 hvm
    rw [withUsername_id hxv]
    exact hleft x hx

/-- Witness of C5: order `a1` is deleted from a store of two orders and a
user; the list that follows has one element, `a2`. -/
theorem deleteOrder_spec_witness :
    (deleteOrder noLarge
        ⟨[⟨"a1", .str "u1", .num 3, .str "soup", .bool false⟩,
          ⟨"a2", .str "u1", .num 4, .str "tea", .bool false⟩], [⟨"u1", "bob"⟩]⟩
        ⟨.str "a1", .undefined, .undefined, .undefined, .undefined⟩).reply
      = .sent 200 (.text "Order '3' with ID a1 deleted") ∧
    (deleteOrder noLarge ⟨[], []⟩ ⟨.str "a1", .undefined, .undefined, .undefined, .undefined⟩).reply
      = .sent 400 (.message "Order not found") ∧
    (∀ st l, (getAllOrders (deleteOrder noLarge
        ⟨[⟨"a1", .str "u1", .num 3, .str "soup", .bool false⟩,
          ⟨"a2", .str "u1", .num 4, .str "tea", .bool false⟩], [⟨"u1", "bob"⟩]⟩
        ⟨.str "a1", .undefined, .undefined, .undefined, .undefined⟩).store).reply
      = .sent st (.orders l) → ∀ v ∈ l, v._id ≠ "a1") :=
  ⟨(deleteOrder_spec.2.2 noLarge
      ⟨[⟨"a1", .str "u1", .num 3, .str "soup", .bool false⟩,
        ⟨"a2", .str "u1", .num 4, .str "tea", .bool false⟩], [⟨"u1", "bob"⟩]⟩
      ⟨.str "a1", .undefined, .undefined, .undefined, .undefined⟩
      ⟨"a1", .str "u1", .num 3, .str "soup", .bool false⟩
      (by decide) (by decide) (by decide) rfl).1,
   (deleteOrder_spec.1 noLarge ⟨[], []⟩
      ⟨.str "a1", .undefined, .undefined, .undefined, .undefined⟩
      (by decide) (by intro o ho; cases ho)).1,
   (deleteOrder_spec.2.2 noLarge
      ⟨[⟨"a1", .str "u1", .num 3, .str "soup", .bool false⟩,
        ⟨"a2", .str "u1", .num 4, .str "tea", .bool false⟩], [⟨"u1", "bob"⟩]⟩
      ⟨.str "a1", .undefined, .undefined, .undefined, .undefined⟩
      ⟨"a1", .str "u1", .num 3, .str "soup", .bool false⟩
      (by decide) (by decide) (by decide) rfl).2.2.2⟩

/-- C6, as the specification states it, fails on two stores: on the store
without orders the reply is 400 with a message, and on a store whose order
references a user that does not exist the handler throws; in neither case is
the reply an array listing the orders. -/
theorem getAllOrders_not_always_list :
    ¬ listsAllOrders ⟨[], []⟩ ∧
    (getAllOrders ⟨[], []⟩).reply = .sent 400 (.message "No orders found") ∧
    ¬ listsAllOrders ⟨[⟨"a1", .str "u9", .num 3, .str "soup", .bool false⟩], [⟨"u1", "bob"⟩]⟩ := by
  refine ⟨?_, by decide, ?_⟩
  · rintro ⟨st, l, h, -⟩
    have := (getAllOrders_orders h).2.1
    exact this rfl
  · rintro ⟨st, l, h, -⟩
    have h' : (getAllOrders ⟨[⟨"a1", .str "u9", .num 3, .str "soup", .bool false⟩],
        [⟨"u1", "bob"⟩]⟩).reply
        = .thrown "TypeError: Cannot read properties of null (reading 'username')" := by
      decide
    rw [h'] at h
    cases h

/-- C6, amended: on a store with at least one order, all of whose orders
reference existing users, the reply of `getAllOrders` is 200 with an array of
as many elements as the store has orders, whose i-th element is the i-th
order of the store with all its fields and the `username` of the user whose
id is the order's user reference; the store is not changed. -/
theorem getAllOrders_lists (s : Store) (hne : s.orders ≠ []) (hu : allUsersExist s) :
    listsAllOrders s ∧
    (∃ l, (getAllOrders s).reply = .sent 200 (.orders l) ∧ l.length = s.orders.length ∧
      ∀ (i : Nat) (h₁ : i < s.orders.length) (h₂ : i < l.length),
        annotated s (s.orders.get ⟨i, h₁⟩) (l.get ⟨i, h₂⟩)) ∧
    (getAllOrders s).store = s := by
  obtain ⟨l, hrun, hmap⟩ := getAllOrders_of_allUsersExist s hne hu
  have hall := forall₂_annotated hmap
  have hlen : l.length = s.orders.length := hall.length_eq.symm
  rw [listsAllOrders, hrun]
  exact ⟨⟨200, l, rfl, hlen, hall⟩, ⟨l, rfl, hlen, fun i h₁ h₂ => hall.get h₁ h₂⟩, rfl⟩

/-- Witness of C6, amended: a store of two orders of the user `bob`. -/
theorem getAllOrders_lists_witness :
    listsAllOrders
      ⟨[⟨"a1", .str "u1", .num 3, .str "soup", .bool false⟩,
        ⟨"a2", .str "u1", .num 4, .str "tea", .bool true⟩], [⟨"u1", "bob"⟩]⟩ :=
  (getAllOrders_lists
      ⟨[⟨"a1", .str "u1", .num 3, .str "soup", .bool false⟩,
        ⟨"a2", .str "u1", .num 4, .str "tea", .bool true⟩], [⟨"u1", "bob"⟩]⟩
      (by decide) (by decide)).1

/-- C10: on a store without orders `getAllOrders` answers 400 with the
message "No orders found", which is not 200 with an empty array; a reply with
status 400 is given on such a store only; and on a store with orders that all
reference existing users the reply is 200 with a non-empty array. -/
theorem getAllOrders_empty_store :
    (∀ s : Store, s.orders = [] →
      (getAllOrders s).reply = .sent 400 (.message "No orders found") ∧
      (getAllOrders s).reply ≠ .sent 200 (.orders [])) ∧
    (∀ (s : Store) (b : ResBody), (getAllOrders s).reply = .sent 400 b → s.orders = []) ∧
    (∀ s : Store, s.orders ≠ [] → allUsersExist s →
      ∃ l, (getAllOrders s).reply = .sent 200 (.orders l) ∧ l ≠ []) := by
  refine ⟨?_, ?_, ?_⟩
  · intro s h
    rw [getAllOrders_of_empty s h]
    exact ⟨rfl, by simp⟩
  · intro s b h
    by_contra hne
    cases hp : promiseAll (s.orders.map (withUsername s)) with
    | none => simp [getAllOrders, Order.find, hne, hp] at h
    | some r => simp [getAllOrders, Order.find, hne, hp] at h
  · intro s hne hu
    obtain ⟨l, hrun, hmap⟩ := getAllOrders_of_allUsersExist s hne hu
    refine ⟨l, by rw [hrun], ?_⟩
    intro hl
    rw [hl] at hmap
    exact hne (List.map_eq_nil_iff.1 hmap)

/-- Witness of C10: the empty store, and a store of one order. -/
theorem getAllOrders_empty_store_witness :
    (getAllOrders ⟨[], [⟨"u1", "bob"⟩]⟩).reply = .sent 400 (.message "No orders found") ∧
    (∃ l, (getAllOrders
        ⟨[⟨"a1", .str "u1", .num 3, .str "soup", .bool false⟩], [⟨"u1", "bob"⟩]⟩).reply
      = .sent 200 (.orders l) ∧ l ≠ []) :=
  ⟨(getAllOrders_empty_store.1 ⟨[], [⟨"u1", "bob"⟩]⟩ rfl).1,
   getAllOrders_empty_store.2.2
      ⟨[⟨"a1", .str "u1", .num 3, .str "soup", .bool false⟩], [⟨"u1", "bob"⟩]⟩
      (by decide) (by decide)⟩

/-! ## Uniqueness of table numbers -/

/-- What `createNewOrder` does to the store. -/
theorem createNewOrder_store (newId : String) (s : Store) (body : Body) :
    (createNewOrder newId s body).store = s ∨
    (tableNoFree body.tableNo s ∧
      (createNewOrder newId s body).store.orders =
        s.orders ++ [{ _id := newId, user := body.user, tableNo := body.tableNo,
                       ordertext := body.ordertext, completed := .bool false }]) := by
  cases hu : body.user.truthy with
  | false => left; simp [createNewOrder, hu]
  | true =>
    cases ht : body.tableNo.truthy with
    | false => left; simp [createNewOrder, ht]
    | true =>
      cases ho : body.ordertext.truthy with
      | false => left; simp [createNewOrder, ho]
      | true =>
        by_cases hfree : tableNoFree body.tableNo s
        · right
          rw [createNewOrder_of_free newId s body hu ht ho hfree]
          exact ⟨hfree, rfl⟩
        · left
          have hdup : ∃ o ∈ s.orders, o.tableNo = body.tableNo := by
            simpa [tableNoFree] using hfree
          rw [createNewOrder_of_taken newId s body hu ht ho hdup]

/-- What `updateOrder` does to the store. -/
theorem updateOrder_store (large : Int → String) (s : Store) (body : Body) :
    (updateOrder large s body).store = s ∨
    ∃ o pre post, Order.findById body.id s = some o ∧ s.orders = pre ++ o :: post ∧
      (updateOrder large s body).store.orders = pre ++ o.overwrite body :: post ∧
      isOtherOrder (Order.findOne body.tableNo s) body.id = false := by
  cases hv : body.validForUpdate with
  | false => left; rw [updateOrder_of_invalid large s body hv]
  | true =>
    cases hfind : Order.findById body.id s with
    | none => left; rw [updateOrder_of_notFound large s body hv hfind]
    | some o =>
      cases hdup : isOtherOrder (Order.findOne body.tableNo s) body.id with
      | true => left; rw [updateOrder_of_conflict large s body o hv hfind hdup]
      | false =>
        right
        obtain ⟨-, pre, post, hl, hpre⟩ := findById_eq_some hfind
        refine ⟨o, pre, post, rfl, hl, ?_, rfl⟩
        rw [updateOrder_of_ok large s body o hv hfind hdup]
        show replaceById (o.overwrite body) s.orders = _
        rw [hl]
        exact replaceById_append _ _ _ _ hpre rfl

/-- What `deleteOrder` does to the store. -/
theorem deleteOrder_store (large : Int → String) (s : Store) (body : Body) :
    (deleteOrder large s body).store = s ∨
    ∃ o pre post, s.orders = pre ++ o :: post ∧
      (deleteOrder large s body).store.orders = pre ++ post := by
  cases hid : body.id.truthy with
  | false => left; rw [deleteOrder_of_missing large s body hid]
  | true =>
    cases hfind : Order.findById body.id s with
    | none => left; rw [deleteOrder_of_notFound large s body hid hfind]
    | some o =>
      right
      obtain ⟨-, pre, post, hl, hpre⟩ := findById_eq_some hfind
      refine ⟨o, pre, post, hl, ?_⟩
      rw [deleteOrder_of_found large s body o hid hfind]
      show removeById o._id s.orders = _
      rw [hl]
      exact removeById_append _ _ _ _ hpre rfl

theorem createNewOrder_distinctTableNos (newId : String) (s : Store) (body : Body)
    (h : distinctTableNos s) : distinctTableNos (createNewOrder newId s body).store := by
  rcases createNewOrder_store newId s body with hs | ⟨hfree, hs⟩
  · rw [hs]; exact h
  · unfold distinctTableNos at h ⊢
    rw [hs, List.map_append, List.nodup_append]
    refine ⟨h, by simp, ?_⟩
    intro t ht ht'
    obtain ⟨o, ho, rfl⟩ := List.mem_map.1 ht
    simp at ht'
    exact hfree o ho ht'

theorem createNewOrder_distinctIds (newId : String) (s : Store) (body : Body)
    (h : distinctIds s) (hnew : newId ∉ s.orders.map (fun o => o._id)) :
    distinctIds (createNewOrder newId s body).store := by
  rcases createNewOrder_store newId s body with hs | ⟨-, hs⟩
  · rw [hs]; exact h
  · unfold distinctIds at h ⊢
    rw [hs, List.map_append, List.nodup_append]
    refine ⟨h, by simp, ?_⟩
    intro t ht ht'
    simp only [List.map_cons, List.map_nil, List.mem_singleton] at ht'
    subst ht'
    exact hnew ht

theorem updateOrder_distinctIds (large : Int → String) (s : Store) (body : Body) (h : distinctIds s) :
    distinctIds (updateOrder large s body).store := by
  rcases updateOrder_store large s body with hs | ⟨o, pre, post, -, hl, hs, -⟩
  · rw [hs]; exact h
  · unfold distinctIds at h ⊢
    rw [hl] at h
    rw [hs]
    simpa [Order.overwrite] using h

theorem updateOrder_distinctTableNos (large : Int → String) (s : Store) (body : Body)
    (hid : distinctIds s) (h : distinctTableNos s) :
    distinctTableNos (updateOrder large s body).store := by
  rcases updateOrder_store large s body with hs | ⟨o, pre, post, hfind, hl, hs, hdup⟩
  · rw [hs]; exact h
  · have hown : o.tableNo = body.tableNo ∨ tableNoFree body.tableNo s := by
      cases hone : Order.findOne body.tableNo s with
      | none => exact Or.inr ((findOne_eq_none_iff _ s).1 hone)
      | some d =>
        left
        obtain ⟨hd, hdt⟩ := findOne_eq_some hone
        obtain ⟨hbid, -⟩ := findById_eq_some hfind
        rw [hone, hbid] at hdup
        have hdo : d._id = o._id := by simpa [isOtherOrder] using hdup
        rw [← eq_of_id_eq hid hd (findById_mem hfind) hdo]
        exact hdt
    unfold distinctTableNos at h ⊢
    rw [hs]
    rw [hl] at h
    rcases hown with hown | hfree
    · simpa [Order.overwrite, hown] using h
    · simp only [List.map_append, List.map_cons] at h ⊢
      rw [List.nodup_middle, List.nodup_cons] at h ⊢
      refine ⟨?_, h.2⟩
      intro hmem
      have hfree' : ∀ x ∈ pre ++ o :: post, x.tableNo ≠ body.tableNo := by
        intro x hx
        exact hfree x (hl ▸ hx)
      rcases List.mem_append.1 hmem with hm | hm
      · obtain ⟨x, hx, hxt⟩ := List.mem_map.1 hm
        exact hfree' x (List.mem_append_left _ hx) hxt
      · obtain ⟨x, hx, hxt⟩ := List.mem_map.1 hm
        exact hfree' x (List.mem_append_right _ (List.mem_cons_of_mem _ hx)) hxt

theorem sublist_of_removed (o : Order) (pre post : List Order) :
    List.Sublist (pre ++ post) (pre ++ o :: post) :=
  List.Sublist.append_left (List.sublist_cons_self o post) pre

theorem deleteOrder_distinctTableNos (large : Int → String) (s : Store) (body : Body) (h : distinctTableNos s) :
    distinctTableNos (deleteOrder large s body).store := by
  rcases deleteOrder_store large s body with hs | ⟨o, pre, post, hl, hs⟩
  · rw [hs]; exact h
  · unfold distinctTableNos at h ⊢
    rw [hs]
    rw [hl] at h
    exact List.Nodup.sublist ((sublist_of_removed o pre post).map _) h

theorem deleteOrder_distinctIds (large : Int → String) (s : Store) (body : Body) (h : distinctIds s) :
    distinctIds (deleteOrder large s body).store := by
  rcases deleteOrder_store large s body with hs | ⟨o, pre, post, hl, hs⟩
  · rw [hs]; exact h
  · unfold distinctIds at h ⊢
    rw [hs]
    rw [hl] at h
    exact List.Nodup.sublist ((sublist_of_removed o pre post).map _) h

theorem reachable_distinct {s : Store} (h : Reachable s) :
    distinctTableNos s ∧ distinctIds s := by
  induction h with
  | init users => exact ⟨List.nodup_nil, List.nodup_nil⟩
  | create newId body _ hnew ih =>
    exact ⟨createNewOrder_distinctTableNos _ _ _ ih.1,
      createNewOrder_distinctIds _ _ _ ih.2 hnew⟩
  | update large body _ ih =>
    exact ⟨updateOrder_distinctTableNos _ _ _ ih.2 ih.1, updateOrder_distinctIds _ _ _ ih.2⟩
  | delete large body _ ih =>
    exact ⟨deleteOrder_distinctTableNos _ _ _ ih.1, deleteOrder_distinctIds _ _ _ ih.2⟩

/-- C7: when the orders of a store have pairwise distinct table numbers (and,
for an update, pairwise distinct `_id`s, the key of the collection), they
still have after one call of `createNewOrder`, `updateOrder` or `deleteOrder`
with whatever request; hence every store reached from a store without orders
by a sequence of such calls has pairwise distinct table numbers. -/
theorem tableNo_unique_invariant :
    (∀ (newId : String) (s : Store) (body : Body), distinctTableNos s →
      distinctTableNos (createNewOrder newId s body).store) ∧
    (∀ (large : Int → String) (s : Store) (body : Body), distinctIds s → distinctTableNos s →
      distinctTableNos (updateOrder large s body).store) ∧
    (∀ (large : Int → String) (s : Store) (body : Body), distinctTableNos s →
      distinctTableNos (deleteOrder large s body).store) ∧
    (∀ s : Store, Reachable s → distinctTableNos s) :=
  ⟨createNewOrder_distinctTableNos, updateOrder_distinctTableNos,
    deleteOrder_distinctTableNos, fun _ h => (reachable_distinct h).1⟩

/-- Witness of C7: an update of order `a1` to the free table 5, and the store
reached by creating table 3 and updating it to table 5. -/
theorem tableNo_unique_invariant_witness :
    distinctTableNos (updateOrder noLarge
        ⟨[⟨"a1", .str "u1", .num 3, .str "soup", .bool false⟩,
          ⟨"a2", .str "u1", .num 4, .str "tea", .bool false⟩], []⟩
        ⟨.str "a1", .str "u2", .num 5, .str "rice", .bool true⟩).store ∧
    distinctTableNos (updateOrder noLarge (createNewOrder "a1" ⟨[], []⟩
        ⟨.undefined, .str "u1", .num 3, .str "soup", .undefined⟩).store
        ⟨.str "a1", .str "u2", .num 5, .str "rice", .bool true⟩).store :=
  ⟨tableNo_unique_invariant.2.1 noLarge
      ⟨[⟨"a1", .str "u1", .num 3, .str "soup", .bool false⟩,
        ⟨"a2", .str "u1", .num 4, .str "tea", .bool false⟩], []⟩
      ⟨.str "a1", .str "u2", .num 5, .str "rice", .bool true⟩ (by decide) (by decide),
   tableNo_unique_invariant.2.2.2 _
      (Reachable.update noLarge ⟨.str "a1", .str "u2", .num 5, .str "rice", .bool true⟩
        (Reachable.create "a1" ⟨.undefined, .str "u1", .num 3, .str "soup", .undefined⟩
          (Reachable.init []) (by decide)))⟩

end OrdersController
